import Mathlib

/-!
Verification of the FBFetch synchronization engine (`fetch_facebook_reach.py`)
against its natural-language specification.

The Python source is shallowly embedded: module-level mutable rate-limit state
becomes an explicit `RateState` record threaded through step functions, the
remote Graph API becomes an explicit oracle (`Api`), CSV files become lists of
association rows, and Python floats become exact rationals (`ℚ`) — the
constants 1.5 and 0.8 are modelled as 3/2 and 4/5, which preserves every
ordering/bound property stated in the claims.  Each definition cites the
source lines it embeds.
-/

/-! ### Python values

Metric values arriving from the API are ints, strings, or keyed maps
(reaction breakdowns).  Floats do not occur in the claims and are folded into
`int`; breakdown maps are flat (string keys to counts), so dictionary entries
are scalars. -/

inductive PyScalar where
  | int (n : Int)
  | str (s : String)
deriving DecidableEq

inductive PyVal where
  | int (n : Int)
  | str (s : String)
  | dict (entries : List (String × PyScalar))
deriving DecidableEq

/-- Decimal value of a digit string, as Python `int` computes it. -/
def digitsToNat (l : List Char) : Nat :=
  l.foldl (fun acc c => acc * 10 + (c.toNat - 48)) 0

/-- Whitespace stripped by Python `str.strip` (the ASCII cases that occur in
CSV fields). -/
def pySpace (c : Char) : Bool :=
  c = ' ' || c = '\t' || c = '\n' || c = '\r'

def pyStripChars (l : List Char) : List Char :=
  ((l.dropWhile pySpace).reverse.dropWhile pySpace).reverse

/-- Python `str.isdigit` on a character list: non-empty and every character a
digit (ASCII digits; the exotic unicode digit classes do not occur here). -/
def pyIsDigitChars (l : List Char) : Bool :=
  !l.isEmpty && l.all Char.isDigit

/-- Python `str.isdigit`. -/
def pyIsDigit (s : String) : Bool :=
  pyIsDigitChars s.data

/-- Python `int(s)` on a string: strip whitespace, optional sign, digits;
`none` models the `ValueError` raised on anything else. -/
def pyParseInt (s : String) : Option Int :=
  let t := pyStripChars s.data
  if pyIsDigitChars t then some (digitsToNat t)
  else
    match t with
    | '-' :: rest => if pyIsDigitChars rest then some (-(digitsToNat rest : Int)) else none
    | '+' :: rest => if pyIsDigitChars rest then some ((digitsToNat rest : Int)) else none
    | _ => none

/-- Lines 466–468 and 700: `sum(int(v) for k, v in value.items() if
isinstance(v, (int, float)) or (isinstance(v, str) and v.isdigit()))`. -/
def dictSum (entries : List (String × PyScalar)) : Int :=
  (entries.filterMap fun kv =>
    match kv.2 with
    | .int n => some n
    | .str s => if pyIsDigit s then some ((digitsToNat s.data : Nat) : Int) else none).sum

/-- Lines 692–707: `safe_int_value`.  An int (or float) passes through,
a stripped digit-string parses, a dict sums its numeric entries, anything
else falls back to the default 0. -/
def safe_int_value : PyVal → Int
  | .int n => n
  | .str s =>
    if pyIsDigitChars (pyStripChars s.data) then (digitsToNat (pyStripChars s.data) : Nat)
    else 0
  | .dict entries => dictSum entries

/-! ### Rate governor (lines 60–64, 141–235)

The module globals `rate_limit_backoff`, `consecutive_successes` and
`last_rate_limit_time` become an explicit state record; each branch of the
response handling in `api_request` becomes a step function returning the new
state and, where the branch sleeps, the sleep duration in seconds. -/

structure RateState where
  backoff : ℚ
  successes : Nat
  lastRateLimit : Option ℚ
deriving DecidableEq

/-- Lines 157–165: the HTTP 429 branch.  Updates the backoff first, then
sleeps `int(headers.get('Retry-After', 60 * rate_limit_backoff))`: the
server header verbatim when present, otherwise the truncation of
`60 × backoff` — with no 300-second ceiling. -/
def on429 (s : RateState) (now : ℚ) (retryAfterHeader : Option Int) : RateState × ℚ :=
  let b := min (s.backoff * (3 / 2)) 10
  let sleep : ℚ :=
    match retryAfterHeader with
    | some r => (r : ℚ)
    | none => ((60 * b : ℚ).floor : ℚ)
  ({ backoff := b, successes := 0, lastRateLimit := some now }, sleep)

/-- Lines 176–186: the API-error branch for `error.code == 4` (application
rate limit).  Updates the backoff and timestamp, sleeps
`min(60 * backoff, 300)` — and, unlike the 429 branch, does NOT touch
`consecutive_successes`. -/
def onAppRateLimit (s : RateState) (now : ℚ) : RateState × ℚ :=
  let b := min (s.backoff * (3 / 2)) 10
  ({ backoff := b, successes := s.successes, lastRateLimit := some now },
   min (60 * b) 300)

/-- Lines 203–208: the success path.  The counter is incremented; after 50
consecutive successes with backoff above 1.0 the backoff decays by 0.8
(floored at 1.0) and the counter resets. -/
def onSuccess (s : RateState) : RateState :=
  let n := s.successes + 1
  if 50 ≤ n ∧ 1 < s.backoff then
    { backoff := max (s.backoff * (4 / 5)) 1, successes := 0,
      lastRateLimit := s.lastRateLimit }
  else
    { backoff := s.backoff, successes := n, lastRateLimit := s.lastRateLimit }

/-- One observable transport outcome, for stating state invariants over
arbitrary interleavings of rate-limit hits and successes. -/
inductive RateEvent where
  | http429 (now : ℚ) (retryAfter : Option Int)
  | appLimit (now : ℚ)
  | success

def rateStep (s : RateState) (e : RateEvent) : RateState :=
  match e with
  | .http429 now r => (on429 s now r).1
  | .appLimit now => (onAppRateLimit s now).1
  | .success => onSuccess s

/-- The initial module state (lines 62–64). -/
def initialRateState : RateState := { backoff := 1, successes := 0, lastRateLimit := none }

/-- Modelled from the spec (section 4.1 / claim C3 wording): on a rate-limit
signal the governor is claimed to reset the success counter and sleep
`max(serverRetryAfter, 60 × backoffMultiplier)` capped at 300 seconds.
Stated only to be compared against the source-derived `on429` and
`onAppRateLimit`. -/
def specRateLimitStep (s : RateState) (now : ℚ) (retryAfterHeader : Option Int) :
    RateState × ℚ :=
  let b := min (s.backoff * (3 / 2)) 10
  let sleep := min (max (((retryAfterHeader.map (fun r => (r : ℚ))).getD 0)) (60 * b)) 300
  ({ backoff := b, successes := 0, lastRateLimit := some now }, sleep)

section RateLemmas

lemma backoff_lower (b : ℚ) (h : 1 ≤ b) : 1 ≤ min (b * (3 / 2)) 10 := by
  have : (1 : ℚ) ≤ b * (3 / 2) := by nlinarith
  exact le_min this (by norm_num)

lemma backoff_upper (b : ℚ) : min (b * (3 / 2)) 10 ≤ 10 := min_le_right _ _

lemma backoff_mono (b : ℚ) (h1 : 1 ≤ b) (h2 : b ≤ 10) : b ≤ min (b * (3 / 2)) 10 := by
  have : b ≤ b * (3 / 2) := by nlinarith
  exact le_min this h2

lemma decay_lower (b : ℚ) : 1 ≤ max (b * (4 / 5)) 1 := le_max_right _ _

lemma decay_upper (b : ℚ) (h2 : b ≤ 10) : max (b * (4 / 5)) 1 ≤ 10 := by
  have : b * (4 / 5) ≤ 10 := by nlinarith
  exact max_le this (by norm_num)

lemma rateStep_inv (s : RateState) (e : RateEvent)
    (h1 : 1 ≤ s.backoff) (h2 : s.backoff ≤ 10) :
    1 ≤ (rateStep s e).backoff ∧ (rateStep s e).backoff ≤ 10 := by
  cases e with
  | http429 now r =>
    exact ⟨backoff_lower s.backoff h1, backoff_upper s.backoff⟩
  | appLimit now =>
    exact ⟨backoff_lower s.backoff h1, backoff_upper s.backoff⟩
  | success =>
    unfold rateStep onSuccess
    by_cases hc : 50 ≤ s.successes + 1 ∧ 1 < s.backoff
    · simp only [hc, if_true]
      exact ⟨decay_lower s.backoff, decay_upper s.backoff h2⟩
    · simp only [hc, if_false]
      exact ⟨h1, h2⟩

lemma foldl_rateStep_inv (evs : List RateEvent) :
    ∀ s : RateState, 1 ≤ s.backoff → s.backoff ≤ 10 →
      1 ≤ (evs.foldl rateStep s).backoff ∧ (evs.foldl rateStep s).backoff ≤ 10 := by
  induction evs with
  | nil => intro s h1 h2; exact ⟨h1, h2⟩
  | cons e rest ih =>
    intro s h1 h2
    have h := rateStep_inv s e h1 h2
    exact ih (rateStep s e) h.1 h.2

lemma iterate_onSuccess_no_decay (k : Nat) :
    ∀ s : RateState, k + s.successes ≤ 49 →
      onSuccess^[k] s =
        { backoff := s.backoff, successes := s.successes + k,
          lastRateLimit := s.lastRateLimit } := by
  induction k with
  | zero => intro s _; simp
  | succ k ih =>
    intro s h
    rw [Function.iterate_succ_apply]
    have hs : onSuccess s =
        { backoff := s.backoff, successes := s.successes + 1,
          lastRateLimit := s.lastRateLimit } := by
      unfold onSuccess
      have hc : ¬ (50 ≤ s.successes + 1 ∧ 1 < s.backoff) := by
        rintro ⟨hn, -⟩; omega
      simp only [hc, if_false]
    rw [hs, ih]
    · simp; omega
    · simp; omega

end RateLemmas

/-- C2: rate-limit backoff monotonicity.  Each 429 step sets the multiplier
to `min(old × 1.5, 10.0)`, which is non-decreasing and capped at 10; after 50
consecutive successes with multiplier above 1.0 it decays to
`max(old × 0.8, 1.0)` and the counter resets; over every sequence of events
the multiplier stays within `[1.0, 10.0]`. -/
theorem rate_backoff_monotone (s : RateState)
    (h1 : 1 ≤ s.backoff) (h2 : s.backoff ≤ 10) :
    (∀ now r, (on429 s now r).1.backoff = min (s.backoff * (3 / 2)) 10 ∧
      s.backoff ≤ (on429 s now r).1.backoff ∧
      (on429 s now r).1.backoff ≤ 10 ∧
      (on429 s now r).1.successes = 0) ∧
    (s.successes = 0 → 1 < s.backoff →
      (onSuccess^[50] s).backoff = max (s.backoff * (4 / 5)) 1 ∧
      (onSuccess^[50] s).successes = 0) ∧
    (∀ evs : List RateEvent,
      1 ≤ (evs.foldl rateStep s).backoff ∧ (evs.foldl rateStep s).backoff ≤ 10) := by
  refine ⟨fun now r => ?_, fun hz hb => ?_, fun evs => foldl_rateStep_inv evs s h1 h2⟩
  · exact ⟨rfl, backoff_mono s.backoff h1 h2, backoff_upper s.backoff,
      rfl⟩
  · have h49 : onSuccess^[49] s =
        { backoff := s.backoff, successes := s.successes + 49,
          lastRateLimit := s.lastRateLimit } := by
      apply iterate_onSuccess_no_decay; omega
    have h50 : onSuccess^[50] s = onSuccess (onSuccess^[49] s) :=
      Function.iterate_succ_apply' onSuccess 49 s
    rw [h50, h49]
    unfold onSuccess
    have hc : 50 ≤ s.successes + 49 + 1 ∧
        1 < ({ backoff := s.backoff, successes := s.successes + 49,
               lastRateLimit := s.lastRateLimit } : RateState).backoff := by
      constructor
      · omega
      · exact hb
    simp only [hc, if_true]
    exact ⟨rfl, rfl⟩

/-- Witness for `rate_backoff_monotone` at the state with backoff 2 and a
fresh success counter. -/
theorem rate_backoff_monotone_witness :
    (on429 { backoff := 2, successes := 0, lastRateLimit := none } 0 none).1.backoff
        = min ((2 : ℚ) * (3 / 2)) 10 ∧
    (onSuccess^[50] { backoff := 2, successes := 0, lastRateLimit := none }).backoff
        = max ((2 : ℚ) * (4 / 5)) 1 := by
  have h := rate_backoff_monotone
    { backoff := 2, successes := 0, lastRateLimit := none }
    (by norm_num) (by norm_num)
  exact ⟨(h.1 0 none).1, (h.2.1 rfl (by norm_num)).1⟩

/-- C3 counterexample: the source's two rate-limit branches both disagree
with the claimed step.  With backoff 1 and a server `Retry-After` of 1
second, the 429 branch sleeps 1 second where the claim demands
`max(1, 60 × 1.5) = 90`; and the `code == 4` branch leaves a success count
of 7 untouched where the claim demands a reset to 0. -/
theorem rate_limit_spec_mismatch :
    on429 { backoff := 1, successes := 0, lastRateLimit := none } 0 (some 1)
      ≠ specRateLimitStep { backoff := 1, successes := 0, lastRateLimit := none } 0 (some 1) ∧
    onAppRateLimit { backoff := 1, successes := 7, lastRateLimit := none } 0
      ≠ specRateLimitStep { backoff := 1, successes := 7, lastRateLimit := none } 0 none := by
  constructor
  · intro h
    have := congrArg Prod.snd h
    norm_num [on429, specRateLimitStep] at this
  · intro h
    have := congrArg (fun p => p.1.successes) h
    norm_num [onAppRateLimit, specRateLimitStep] at this

/-- C3 amended: on HTTP 429 the transport sets the timestamp, multiplies the
backoff (capped at 10), resets the success counter, and sleeps the verbatim
`Retry-After` header when present — otherwise `⌊60 × backoff⌋`, with no
300-second cap; on an API error with code 4 it sets timestamp and backoff the
same way but leaves the success counter unchanged and sleeps
`min(60 × backoff, 300)`, ignoring any `Retry-After` header. -/
theorem rate_limit_step_behavior (s : RateState) (now : ℚ) (r : Int) :
    ((on429 s now (some r)).1.lastRateLimit = some now ∧
     (on429 s now (some r)).1.backoff = min (s.backoff * (3 / 2)) 10 ∧
     (on429 s now (some r)).1.successes = 0 ∧
     (on429 s now (some r)).2 = (r : ℚ)) ∧
    (on429 s now none).2 = (((60 * min (s.backoff * (3 / 2)) 10 : ℚ).floor : Int) : ℚ) ∧
    ((onAppRateLimit s now).1.lastRateLimit = some now ∧
     (onAppRateLimit s now).1.backoff = min (s.backoff * (3 / 2)) 10 ∧
     (onAppRateLimit s now).1.successes = s.successes ∧
     (onAppRateLimit s now).2 = min (60 * min (s.backoff * (3 / 2)) 10) 300 ∧
     (onAppRateLimit s now).2 ≤ 300) :=
  ⟨⟨rfl, rfl, rfl, rfl⟩, rfl, rfl, rfl, rfl, rfl, min_le_right _ _⟩

/-- C9: dictionary metric summation.  The mixed breakdown sums to 18; a
single numeric entry contributes its value; the sum is additive over
concatenation; and a non-digit string entry is skipped entirely (contributes
nothing, raises nothing). -/
theorem dict_metric_summation :
    safe_int_value (.dict [("LIKE", .int 10), ("LOVE", .int 5), ("WOW", .str "3")]) = 18 ∧
    (∀ k n, safe_int_value (.dict [(k, .int n)]) = n) ∧
    (∀ e1 e2, safe_int_value (.dict (e1 ++ e2)) =
        safe_int_value (.dict e1) + safe_int_value (.dict e2)) ∧
    (∀ pre post k s, pyIsDigit s = false →
        safe_int_value (.dict (pre ++ (k, PyScalar.str s) :: post)) =
        safe_int_value (.dict (pre ++ post))) := by
  refine ⟨by decide, fun k n => ?_, fun e1 e2 => ?_, fun pre post k s h => ?_⟩
  · simp [safe_int_value, dictSum]
  · simp [safe_int_value, dictSum, List.filterMap_append]
  · simp [safe_int_value, dictSum, List.filterMap_append, List.filterMap_cons, h]

/-- Witness for `dict_metric_summation`: the entry `"total" : "n/a"` is
skipped, contributing 0 to the stored scalar. -/
theorem dict_metric_summation_witness :
    safe_int_value (.dict [("total", PyScalar.str "n/a"), ("LIKE", PyScalar.int 10)]) =
      safe_int_value (.dict [("LIKE", PyScalar.int 10)]) :=
  dict_metric_summation.2.2.2 [] [("LIKE", PyScalar.int 10)] "total" "n/a" (by decide)

/-! ### Window scheduler (lines 787–810, `get_missing_months`)

The `while` loop walks months from the start period strictly up to the
current (in-progress) month, collecting those whose `YYYY-MM` key is not
among the persisted reports.  The loop is embedded with an explicit
iteration bound (`fuel`); the bound chosen by `get_missing_months` strictly
exceeds the number of iterations the Python loop can perform from any start
within the claims' domain, so the guard below is never the reason the
recursion stops. -/

/-- Line 801: the f-string `f"{year}-{month:02d}"`. -/
def monthKey (y m : Nat) : String :=
  toString y ++ "-" ++ (if m < 10 then "0" ++ toString m else toString m)

def missingMonthsLoop (existing : List String) (cy cm : Nat) :
    Nat → Nat → Nat → List (Nat × Nat)
  | 0, _, _ => []
  | fuel + 1, y, m =>
    if y < cy ∨ (y = cy ∧ m < cm) then
      if monthKey y m ∈ existing then
        (if m + 1 > 12 then missingMonthsLoop existing cy cm fuel (y + 1) 1
         else missingMonthsLoop existing cy cm fuel y (m + 1))
      else
        (y, m) ::
        (if m + 1 > 12 then missingMonthsLoop existing cy cm fuel (y + 1) 1
         else missingMonthsLoop existing cy cm fuel y (m + 1))
    else []

def get_missing_months (existing : List String) (startY startM cy cm : Nat) :
    List (Nat × Nat) :=
  missingMonthsLoop existing cy cm (cy * 12 + cm + 13) startY startM

lemma mem_missingMonthsLoop (existing : List String) (cy cm : Nat)
    (hcm1 : 1 ≤ cm) (hcm2 : cm ≤ 12) :
    ∀ (fuel y0 m0 : Nat), 1 ≤ m0 → m0 ≤ 12 →
      cy * 12 + cm ≤ y0 * 12 + m0 + fuel →
      ∀ y m, ((y, m) ∈ missingMonthsLoop existing cy cm fuel y0 m0 ↔
        (1 ≤ m ∧ m ≤ 12 ∧ y0 * 12 + m0 ≤ y * 12 + m ∧
         y * 12 + m < cy * 12 + cm ∧ monthKey y m ∉ existing)) := by
  intro fuel
  induction fuel with
  | zero =>
    intro y0 m0 hm1 hm2 hf y m
    simp only [missingMonthsLoop, List.not_mem_nil, false_iff]
    rintro ⟨-, -, h3, h4, -⟩
    omega
  | succ fuel ih =>
    intro y0 m0 hm1 hm2 hf y m
    rw [missingMonthsLoop]
    by_cases hc : y0 < cy ∨ (y0 = cy ∧ m0 < cm)
    case neg =>
      rw [if_neg hc]
      simp only [List.not_mem_nil, false_iff]
      rintro ⟨-, -, h3, h4, -⟩
      push_neg at hc
      obtain ⟨hge, himp⟩ := hc
      rcases Nat.eq_or_lt_of_le hge with heq | hlt
      · have := himp heq.symm
        omega
      · omega
    case pos =>
      rw [if_pos hc]
      have hidx : y0 * 12 + m0 < cy * 12 + cm := by omega
      by_cases hm12 : m0 + 1 > 12
      · have hm0 : m0 = 12 := by omega
        have hI := ih (y0 + 1) 1 (by omega) (by omega) (by omega) y m
        by_cases hk : monthKey y0 m0 ∈ existing
        · rw [if_pos hk, if_pos hm12, hI]
          constructor
          · rintro ⟨h1, h2, h3, h4, h5⟩
            exact ⟨h1, h2, by omega, h4, h5⟩
          · rintro ⟨h1, h2, h3, h4, h5⟩
            refine ⟨h1, h2, ?_, h4, h5⟩
            by_contra hlt
            have heq : y = y0 ∧ m = m0 := by omega
            rw [heq.1, heq.2] at h5
            exact h5 hk
        · rw [if_neg hk, if_pos hm12]
          simp only [List.mem_cons, hI, Prod.mk.injEq]
          constructor
          · rintro (⟨hy, hm⟩ | ⟨h1, h2, h3, h4, h5⟩)
            · subst hy; subst hm
              exact ⟨hm1, hm2, le_refl _, hidx, hk⟩
            · exact ⟨h1, h2, by omega, h4, h5⟩
          · rintro ⟨h1, h2, h3, h4, h5⟩
            rcases Nat.eq_or_lt_of_le h3 with heq | hlt
            · left
              constructor <;> omega
            · right
              exact ⟨h1, h2, by omega, h4, h5⟩
      · have hI := ih y0 (m0 + 1) (by omega) (by omega) (by omega) y m
        by_cases hk : monthKey y0 m0 ∈ existing
        · rw [if_pos hk, if_neg hm12, hI]
          constructor
          · rintro ⟨h1, h2, h3, h4, h5⟩
            exact ⟨h1, h2, by omega, h4, h5⟩
          · rintro ⟨h1, h2, h3, h4, h5⟩
            refine ⟨h1, h2, ?_, h4, h5⟩
            by_contra hlt
            have heq : y = y0 ∧ m = m0 := by omega
            rw [heq.1, heq.2] at h5
            exact h5 hk
        · rw [if_neg hk, if_neg hm12]
          simp only [List.mem_cons, hI, Prod.mk.injEq]
          constructor
          · rintro (⟨hy, hm⟩ | ⟨h1, h2, h3, h4, h5⟩)
            · subst hy; subst hm
              exact ⟨hm1, hm2, le_refl _, hidx, hk⟩
            · exact ⟨h1, h2, by omega, h4, h5⟩
          · rintro ⟨h1, h2, h3, h4, h5⟩
            rcases Nat.eq_or_lt_of_le h3 with heq | hlt
            · left
              constructor <;> omega
            · right
              exact ⟨h1, h2, by omega, h4, h5⟩

/-- C4: `get_missing_months` returns exactly the months from the start
period up to but excluding the current month whose `YYYY-MM` key is not
persisted (the general membership characterisation — which also makes the
function pure and idempotent in the persisted set), and on
`startPeriod = 2025-01`, now = April 2025, empty persisted set it returns
exactly January through March 2025. -/
theorem missing_months_spec :
    (∀ (existing : List String) (sy sm cy cm y m : Nat),
      1 ≤ sm → sm ≤ 12 → 1 ≤ cm → cm ≤ 12 →
      ((y, m) ∈ get_missing_months existing sy sm cy cm ↔
        (1 ≤ m ∧ m ≤ 12 ∧ sy * 12 + sm ≤ y * 12 + m ∧
         y * 12 + m < cy * 12 + cm ∧ monthKey y m ∉ existing))) ∧
    get_missing_months [] 2025 1 2025 4 = [(2025, 1), (2025, 2), (2025, 3)] := by
  constructor
  · intro existing sy sm cy cm y m hsm1 hsm2 hcm1 hcm2
    exact mem_missingMonthsLoop existing cy cm hcm1 hcm2 _ sy sm hsm1 hsm2 (by omega) y m
  · decide

/-- Witness for `missing_months_spec`: March 2025 is listed when February is
already persisted. -/
theorem missing_months_spec_witness :
    (2025, 3) ∈ get_missing_months ["2025-02"] 2025 1 2025 4 :=
  (missing_months_spec.1 ["2025-02"] 2025 1 2025 4 2025 3 (by norm_num) (by norm_num)
    (by norm_num) (by norm_num)).mpr (by decide)

/-! ### Publications pagination (lines 353–410, `get_page_publications`)

The cursor-following `while` loop is embedded over an oracle giving the
response to the n-th page fetch (n counts `api_request` calls, 1-based, which
is exactly `page_num`).  The loop carries `(pageNum, postCount, fetches)`;
the explicit recursion bound 60 strictly exceeds the 51 iterations the
source's own `page_num > 50` break permits, so the bound is never the reason
the loop stops. -/

inductive PubResp where
  | ok (posts : Nat) (hasNext : Bool)
  | err
  | nodata
deriving DecidableEq

def pubLoop (api : Nat → PubResp) : Nat → Nat → Nat → Nat → Nat × Nat
  | 0, _, count, fetches => (count, fetches)
  | fuel + 1, pageNum, count, fetches =>
    let p := pageNum + 1
    match api p with
    | .ok posts hasNext =>
      let count2 := count + posts
      if hasNext = true ∧ 0 < posts then
        if p > 50 then (count2, fetches + 1)
        else pubLoop api fuel p count2 (fetches + 1)
      else (count2, fetches + 1)
    | .err => (count, fetches + 1)
    | .nodata => (count, fetches + 1)

/-- The loop of `get_page_publications`, returning the post count and the
number of page fetches performed. -/
def get_page_publications (api : Nat → PubResp) : Nat × Nat :=
  pubLoop api 60 0 0 0

lemma pubLoop_fetch_bound (api : Nat → PubResp) :
    ∀ fuel pageNum count fetches, pageNum ≤ 50 →
      (pubLoop api fuel pageNum count fetches).2 ≤ fetches + (51 - pageNum) := by
  intro fuel
  induction fuel with
  | zero =>
    intro pageNum count fetches h
    simp only [pubLoop]
    omega
  | succ fuel ih =>
    intro pageNum count fetches h
    simp only [pubLoop]
    split
    case _ posts hasNext _ =>
      by_cases hnext : hasNext = true ∧ 0 < posts
      · rw [if_pos hnext]
        by_cases hp : pageNum + 1 > 50
        · rw [if_pos hp]
          simp
          omega
        · rw [if_neg hp]
          have := ih (pageNum + 1) (count + posts) (fetches + 1) (by omega)
          omega
      · rw [if_neg hnext]
        simp
        omega
    case _ => simp; omega
    case _ => simp; omega

/-- C10: the publications pagination is bounded — for every oracle the loop
performs at most 51 page fetches, and an adversarial API that always returns
a full page with a next cursor is cut off at exactly 51 fetches by the
`page_num > 50` break. -/
theorem publications_pagination_bounded :
    (∀ api : Nat → PubResp, (get_page_publications api).2 ≤ 51) ∧
    (get_page_publications (fun _ => .ok 100 true)).2 = 51 := by
  constructor
  · intro api
    have := pubLoop_fetch_bound api 60 0 0 0 (by omega)
    simpa [get_page_publications] using this
  · decide

/-! ### Persisted SyncState and CSV loading (lines 498–550)

A persisted window file is its header (`fieldnames`) plus rows, each row an
association list from column name to raw string.  `read_existing_csv`
returns the key-ordered mapping from Page ID to parsed row data plus the set
of expected columns absent from the header.  A Python dict keyed by Page ID
becomes an insertion-ordered association list with key-unique insert. -/

structure PageData where
  page : String
  pageId : String
  reach : PyVal
  engagedUsers : Option PyVal
  engagements : Option PyVal
  reactions : Option PyVal
  publications : Option PyVal
  status : Option String
  comment : Option String
deriving DecidableEq

abbrev CsvRow := List (String × String)

abbrev SyncState := List (String × PageData)

def cget (row : CsvRow) (k : String) : Option String :=
  (row.find? (fun kv => kv.1 == k)).map (fun kv => kv.2)

def alookup : SyncState → String → Option PageData
  | [], _ => none
  | kv :: rest, k => if kv.1 = k then some kv.2 else alookup rest k

/-- Python dict assignment `d[k] = v`: replace in place if the key exists,
else append. -/
def aInsert (l : SyncState) (k : String) (v : PageData) : SyncState :=
  if l.any (fun kv => kv.1 == k) then
    l.map (fun kv => if kv.1 = k then (kv.1, v) else kv)
  else l ++ [(k, v)]

/-- Lines 509–512. -/
def expected_columns : List String :=
  ["Page", "Page ID", "Reach", "Engaged Users", "Engagements",
   "Reactions", "Publications", "Status", "Comment"]

/-- Lines 520–545: build one row's record.  `none` models an exception
(`KeyError` on `row["Page"]`, or `ValueError` from `int(...)` everywhere
except the Reactions field, whose `try/except` falls back to 0). -/
def buildPageData (row : CsvRow) (pid : String) : Option PageData := do
  let page ← cget row "Page"
  let reach ←
    match cget row "Reach" with
    | none => some (PyVal.int 0)
    | some s => (pyParseInt s).map PyVal.int
  let engagedUsers ←
    match cget row "Engaged Users" with
    | none => some none
    | some s => (pyParseInt s).map (fun n => some (PyVal.int n))
  let engagements ←
    match cget row "Engagements" with
    | none => some none
    | some s => (pyParseInt s).map (fun n => some (PyVal.int n))
  let reactions : Option PyVal :=
    match cget row "Reactions" with
    | none => none
    | some s => some (PyVal.int ((pyParseInt s).getD 0))
  let publications ←
    match cget row "Publications" with
    | none => some none
    | some s => (pyParseInt s).map (fun n => some (PyVal.int n))
  pure { page := page, pageId := pid, reach := reach,
         engagedUsers := engagedUsers, engagements := engagements,
         reactions := reactions, publications := publications,
         status := cget row "Status", comment := cget row "Comment" }

/-- The row loop of lines 519–545: a row without a "Page ID" key is skipped;
an exception while building a row aborts the whole loop (the enclosing
`try` at line 504), keeping the rows accumulated so far. -/
def readRowsLoop : List CsvRow → SyncState → SyncState
  | [], acc => acc
  | row :: rest, acc =>
    match cget row "Page ID" with
    | none => readRowsLoop rest acc
    | some pid =>
      match buildPageData row pid with
      | some pd => readRowsLoop rest (aInsert acc pid pd)
      | none => acc

/-- Lines 498–550: `read_existing_csv`. -/
def read_existing_csv (fieldnames : List String) (rows : List CsvRow) :
    SyncState × List String :=
  (readRowsLoop rows [], expected_columns.filter (fun c => !(fieldnames.contains c)))

/-! ### Remote API oracle and the fetch/merge pipeline (lines 287–690)

The Graph API becomes an oracle record: per-page token exchange result, name
lookup result, publications pagination responses, and per-metric insights
responses.  Every function additionally returns the list of outbound calls it
performs, so "which fetches a run issues" is a statement about lists.  The
BATCH_SIZE chunking in `process_in_batches` only affects log lines — the
per-page work is sequential and independent of batch boundaries — so the
embedding walks the classified page lists directly. -/

inductive ApiCall where
  | tokenExchange (pageId : String)
  | nameFetch (pageId : String)
  | publicationsFetch (pageId : String)
  | insightsFetch (pageId : String) (metric : String)
deriving DecidableEq

def ApiCall.pid : ApiCall → String
  | .tokenExchange p => p
  | .nameFetch p => p
  | .publicationsFetch p => p
  | .insightsFetch p _ => p

def ApiCall.isInsights : ApiCall → Bool
  | .insightsFetch _ _ => true
  | _ => false

inductive InsightResp where
  | ok (value : PyVal)
  | apiError (code : Int) (msg : String)
  | empty
deriving DecidableEq

structure Api where
  pageToken : String → Option String
  pageName : String → Option String
  pubPages : String → Nat → PubResp
  insights : String → String → InsightResp

structure Metrics where
  reach : PyVal
  engagedUsers : PyVal
  engagements : PyVal
  reactions : PyVal
  publications : PyVal
  reactionsDetails : List (String × PyScalar)
  status : String
  comment : String
deriving DecidableEq

/-- Python `result[key] == 0` (line 492): only an int 0 compares equal. -/
def pyEqZero : PyVal → Bool
  | .int n => n == 0
  | _ => false

/-- Line 479: `f"{display_name}: {error_msg} (kod {error_code})"`. -/
def errText (display : String) (code : Int) (msg : String) : String :=
  display ++ ": " ++ msg ++ " (kod " ++ toString code ++ ")"

/-- Lines 412–496: `get_page_metrics`.  A failed token exchange returns the
NO_ACCESS record immediately — before any publications or insights request.
Otherwise publications are counted, the three insight metrics are fetched in
mapping order, a dict-valued reactions value is summed, and the record is
classified API_ERROR / NO_DATA / OK. -/
def get_page_metrics (api : Api) (pid : String) : Metrics × List ApiCall :=
  match api.pageToken pid with
  | none =>
    ({ reach := .int 0, engagedUsers := .int 0, engagements := .int 0,
       reactions := .int 0, publications := .int 0, reactionsDetails := [],
       status := "NO_ACCESS", comment := "Kunde inte hämta Page Access Token" },
     [.tokenExchange pid])
  | some _ =>
    let pubs := pubLoop (api.pubPages pid) 60 0 0 0
    let r1 := api.insights pid "page_impressions_unique"
    let r2 := api.insights pid "page_post_engagements"
    let r3 := api.insights pid "page_actions_post_reactions_total"
    let reach := match r1 with | .ok v => v | _ => PyVal.int 0
    let engagements := match r2 with | .ok v => v | _ => PyVal.int 0
    let reactionsPair : PyVal × List (String × PyScalar) :=
      match r3 with
      | .ok (.dict es) => (PyVal.int (dictSum es), es)
      | .ok v => (v, [])
      | _ => (PyVal.int 0, [])
    let errs :=
      (match r1 with | .apiError c m => [errText "Räckvidd" c m] | _ => []) ++
      (match r2 with | .apiError c m => [errText "Interaktioner" c m] | _ => []) ++
      (match r3 with | .apiError c m => [errText "Reaktioner" c m] | _ => [])
    let base : Metrics :=
      { reach := reach, engagedUsers := .int 0, engagements := engagements,
        reactions := reactionsPair.1, publications := .int (pubs.1 : Int),
        reactionsDetails := reactionsPair.2, status := "OK", comment := "" }
    let classified : Metrics :=
      if errs.isEmpty then
        if pyEqZero base.reach && pyEqZero base.engagedUsers && pyEqZero base.engagements
            && pyEqZero base.reactions && pyEqZero base.publications then
          { base with status := "NO_DATA", comment := "Alla värden är noll" }
        else base
      else
        { base with status := "API_ERROR",
                    comment := String.intercalate "; " (errs.take 3) }
    (classified,
     [ApiCall.tokenExchange pid] ++
       List.replicate pubs.2 (ApiCall.publicationsFetch pid) ++
       [.insightsFetch pid "page_impressions_unique",
        .insightsFetch pid "page_post_engagements",
        .insightsFetch pid "page_actions_post_reactions_total"])

/-- Lines 552–562: `get_missing_data_for_page` — of the expected columns,
only a missing "Publications" triggers a fetch; nothing else is ever
re-fetched for an existing page. -/
def get_missing_data_for_page (api : Api) (pid : String) (missing_columns : List String) :
    List (String × Int) × List ApiCall :=
  if "Publications" ∈ missing_columns then
    let pubs := pubLoop (api.pubPages pid) 60 0 0 0
    ([("Publications", (pubs.1 : Int))],
     List.replicate pubs.2 (ApiCall.publicationsFetch pid))
  else ([], [])

/-- Assignment `existing_data[page_id][key] = value` for the keys
`get_missing_data_for_page` can produce (only "Publications"). -/
def setField (pd : PageData) (k : String) (v : Int) : PageData :=
  if k = "Publications" then { pd with publications := some (PyVal.int v) } else pd

/-- The in-place mutation lines 567–571 apply to one stored record: write the
fetched missing values, then overwrite Status and Comment. -/
def backfillApply (missing_data : List (String × Int)) (pd : PageData) : PageData :=
  { missing_data.foldl (fun pd kv2 => setField pd kv2.1 kv2.2) pd with
      status := some "UPDATED", comment := some "Saknade kolumner tillagda" }

/-- Lines 564–571: `update_existing_page_data` — writes the fetched missing
values into the stored record and unconditionally overwrites its Status with
"UPDATED" and its Comment. -/
def update_existing_page_data (existing : SyncState) (pid : String)
    (missing_data : List (String × Int)) : SyncState :=
  if (alookup existing pid).isSome then
    existing.map (fun kv =>
      if kv.1 = pid then (kv.1, backfillApply missing_data kv.2) else kv)
  else existing

/-- Lines 610 and 661: `name = page_name or get_page_name(page_id, cache)`
(an empty discovery name is falsy and triggers a name lookup). -/
def pageNameOf (api : Api) (pid nm : String) : Option String × List ApiCall :=
  if nm = "" then (api.pageName pid, [.nameFetch pid]) else (some nm, [])

/-- Lines 621–631: the ResultRecord row appended for a newly processed page. -/
def mkRow (name pid : String) (m : Metrics) : PageData :=
  { page := name, pageId := pid, reach := m.reach,
    engagedUsers := some m.engagedUsers, engagements := some m.engagements,
    reactions := some m.reactions, publications := some m.publications,
    status := some m.status, comment := some m.comment }

structure NewAcc where
  rows : List PageData
  succ : Nat
  failed : Nat
  calls : List ApiCall

/-- Lines 608–651: the per-page body of the full-processing loop. -/
def newPageStep (api : Api) (acc : NewAcc) (p : String × String) : NewAcc :=
  let nameRes := pageNameOf api p.1 p.2
  match nameRes.1 with
  | none => { acc with failed := acc.failed + 1, calls := acc.calls ++ nameRes.2 }
  | some name =>
    let m := get_page_metrics api p.1
    { rows := acc.rows ++ [mkRow name p.1 m.1],
      succ := acc.succ + 1, failed := acc.failed,
      calls := acc.calls ++ nameRes.2 ++ m.2 }

structure BackfillAcc where
  state : SyncState
  updated : Nat
  failed : Nat
  calls : List ApiCall

/-- Lines 659–684: the per-page body of the backfill loop for existing
pages — name lookup, token exchange, missing-column fetch, in-place update. -/
def backfillStep (api : Api) (missing_columns : List String)
    (acc : BackfillAcc) (p : String × String) : BackfillAcc :=
  let nameRes := pageNameOf api p.1 p.2
  match nameRes.1 with
  | none => { acc with failed := acc.failed + 1, calls := acc.calls ++ nameRes.2 }
  | some _ =>
    match api.pageToken p.1 with
    | none =>
      { acc with failed := acc.failed + 1,
                 calls := acc.calls ++ nameRes.2 ++ [.tokenExchange p.1] }
    | some _ =>
      let md := get_missing_data_for_page api p.1 missing_columns
      { state := update_existing_page_data acc.state p.1 md.1,
        updated := acc.updated + 1, failed := acc.failed,
        calls := acc.calls ++ nameRes.2 ++ [.tokenExchange p.1] ++ md.2 }

structure BatchResult where
  results : List PageData
  finalState : SyncState
  success : Nat
  failed : Nat
  skipped : Int
  updated : Nat
  calls : List ApiCall

/-- Lines 573–690: `process_in_batches`.  Pages already in the loaded
SyncState go to the backfill loop (and only when columns are missing); new
pages get full processing.  `finalState` is what the run leaves in
`existing_data` (the mutated dict); since `results` aliases that dict's
values, `results` is the post-update existing records followed by the new
rows. -/
def process_in_batches (api : Api) (page_list : List (String × String))
    (existing : SyncState) (missing_columns : List String) : BatchResult :=
  let newPages := page_list.filter (fun p => (alookup existing p.1).isNone)
  let backfillPages :=
    if missing_columns.isEmpty then []
    else page_list.filter (fun p => (alookup existing p.1).isSome)
  let na := newPages.foldl (newPageStep api) ⟨[], 0, 0, []⟩
  let ba := backfillPages.foldl (backfillStep api missing_columns) ⟨existing, 0, 0, []⟩
  { results := ba.state.map (fun kv => kv.2) ++ na.rows,
    finalState := ba.state,
    success := na.succ,
    failed := na.failed + ba.failed,
    skipped := (existing.length : Int) - (backfillPages.length : Int),
    updated := ba.updated,
    calls := na.calls ++ ba.calls }

/-- Lines 287–306: the placeholder test
`page_name and page_name.startswith('Srholder') and page_name[8:].isdigit()`. -/
def isPlaceholderName (n : String) : Bool :=
  !n.data.isEmpty && (n.data.take 8 == "Srholder".data) && pyIsDigitChars (n.data.drop 8)

def filter_placeholder_pages (page_list : List (String × String)) :
    List (String × String) :=
  page_list.filter (fun p => !(isPlaceholderName p.2))

/-- Line 730: `sorted(data, key=lambda x: safe_int_value(x.get("Reach", 0)),
reverse=True)` — a stable descending sort, here as insertion sort (stable:
an element is placed after every earlier element with a ≥ key). -/
def insertByReach (r : PageData) : List PageData → List PageData
  | [] => [r]
  | y :: ys =>
    if safe_int_value y.reach < safe_int_value r.reach then r :: y :: ys
    else y :: insertByReach r ys

def save_results_sorted (rows : List PageData) : List PageData :=
  rows.foldl (fun acc r => insertByReach r acc) []

section MergeLemmas

lemma alookup_mapIf (pid : String) (g : PageData → PageData) :
    ∀ (e : SyncState) (k : String),
      alookup (e.map (fun kv => if kv.1 = pid then (kv.1, g kv.2) else kv)) k
        = (alookup e k).map (fun pd => if k = pid then g pd else pd) := by
  intro e
  induction e with
  | nil => intro k; rfl
  | cons kv rest ih =>
    intro k
    obtain ⟨a, v⟩ := kv
    simp only [List.map_cons]
    by_cases h1 : a = pid
    · by_cases h2 : a = k
      · subst h1
        subst h2
        simp [alookup]
      · simp only [if_pos h1, alookup, if_neg h2]
        exact ih k
    · by_cases h2 : a = k
      · have hk : ¬ k = pid := fun hkp => h1 (h2.trans hkp)
        simp only [if_neg h1, alookup, if_pos h2, Option.map_some', if_neg hk]
      · simp only [if_neg h1, alookup, if_neg h2]
        exact ih k

lemma alookup_update (e : SyncState) (pid : String) (md : List (String × Int)) (k : String) :
    alookup (update_existing_page_data e pid md) k
      = (alookup e k).map (fun pd => if k = pid then backfillApply md pd else pd) := by
  unfold update_existing_page_data
  by_cases hg : (alookup e pid).isSome
  · rw [if_pos hg]
    exact alookup_mapIf pid (backfillApply md) e k
  · rw [if_neg hg]
    by_cases hk : k = pid
    · subst hk
      rw [Option.not_isSome_iff_eq_none] at hg
      rw [hg]
      rfl
    · cases alookup e k <;> simp [hk]

lemma setFieldFold_reach (l : List (String × Int)) :
    ∀ q : PageData, (l.foldl (fun pd kv2 => setField pd kv2.1 kv2.2) q).reach = q.reach := by
  induction l with
  | nil => intro q; rfl
  | cons kv rest ih =>
    intro q
    rw [List.foldl_cons, ih]
    unfold setField
    by_cases h : kv.1 = "Publications" <;> simp [h]

lemma backfillApply_reach (md : List (String × Int)) (pd : PageData) :
    (backfillApply md pd).reach = pd.reach := by
  simp only [backfillApply]
  exact setFieldFold_reach md pd

lemma backfillApply_status (md : List (String × Int)) (pd : PageData) :
    (backfillApply md pd).status = some "UPDATED" := rfl

lemma pageNameOf_calls (api : Api) (pid nm : String) :
    ∀ c ∈ (pageNameOf api pid nm).2, c = ApiCall.nameFetch pid := by
  intro c hc
  unfold pageNameOf at hc
  by_cases h : nm = "" <;> simp [h] at hc
  exact hc

lemma get_missing_data_calls (api : Api) (pid : String) (mc : List String) :
    ∀ c ∈ (get_missing_data_for_page api pid mc).2, c = ApiCall.publicationsFetch pid := by
  intro c hc
  unfold get_missing_data_for_page at hc
  by_cases h : "Publications" ∈ mc <;> simp [h] at hc
  exact hc.2

lemma backfillStep_reach (api : Api) (mc : List String) (acc : BackfillAcc)
    (p : String × String) (k : String) :
    (alookup (backfillStep api mc acc p).state k).map PageData.reach
      = (alookup acc.state k).map PageData.reach := by
  rcases hn : (pageNameOf api p.1 p.2).1 with _ | name
  · simp only [backfillStep, hn]
  · rcases ht : api.pageToken p.1 with _ | tok
    · simp only [backfillStep, hn, ht]
    · simp only [backfillStep, hn, ht]
      rw [alookup_update]
      cases alookup acc.state k with
      | none => rfl
      | some pd =>
        by_cases hk : k = p.1 <;> simp [hk, backfillApply_reach]

lemma backfillFold_reach (api : Api) (mc : List String) :
    ∀ (ps : List (String × String)) (acc : BackfillAcc) (k : String),
      (alookup (ps.foldl (backfillStep api mc) acc).state k).map PageData.reach
        = (alookup acc.state k).map PageData.reach := by
  intro ps
  induction ps with
  | nil => intro acc k; rfl
  | cons p rest ih =>
    intro acc k
    rw [List.foldl_cons, ih, backfillStep_reach]

lemma backfillStep_status (api : Api) (mc : List String) (acc : BackfillAcc)
    (p : String × String) (k : String) (pd : PageData)
    (h : alookup acc.state k = some pd) :
    ∃ pd', alookup (backfillStep api mc acc p).state k = some pd' ∧
      (pd' = pd ∨ pd'.status = some "UPDATED") := by
  rcases hn : (pageNameOf api p.1 p.2).1 with _ | name
  · exact ⟨pd, by simp only [backfillStep, hn]; exact h, Or.inl rfl⟩
  · rcases ht : api.pageToken p.1 with _ | tok
    · exact ⟨pd, by simp only [backfillStep, hn, ht]; exact h, Or.inl rfl⟩
    · by_cases hk : k = p.1
      · refine ⟨backfillApply (get_missing_data_for_page api p.1 mc).1 pd, ?_,
          Or.inr (backfillApply_status _ _)⟩
        simp only [backfillStep, hn, ht]
        rw [alookup_update, h]
        simp [hk]
      · refine ⟨pd, ?_, Or.inl rfl⟩
        simp only [backfillStep, hn, ht]
        rw [alookup_update, h]
        simp [hk]

lemma backfillFold_status (api : Api) (mc : List String) :
    ∀ (ps : List (String × String)) (acc : BackfillAcc) (k : String) (pd : PageData),
      alookup acc.state k = some pd →
      ∃ pd', alookup (ps.foldl (backfillStep api mc) acc).state k = some pd' ∧
        (pd' = pd ∨ pd'.status = some "UPDATED") := by
  intro ps
  induction ps with
  | nil => intro acc k pd h; exact ⟨pd, h, Or.inl rfl⟩
  | cons p rest ih =>
    intro acc k pd h
    obtain ⟨pd1, h1, hr1⟩ := backfillStep_status api mc acc p k pd h
    obtain ⟨pd2, h2, hr2⟩ := ih (backfillStep api mc acc p) k pd1 h1
    refine ⟨pd2, h2, ?_⟩
    rcases hr2 with rfl | hs
    · exact hr1
    · exact Or.inr hs

lemma backfillStep_calls_no_insights (api : Api) (mc : List String) (acc : BackfillAcc)
    (p : String × String) (h : ∀ c ∈ acc.calls, c.isInsights = false) :
    ∀ c ∈ (backfillStep api mc acc p).calls, c.isInsights = false := by
  intro c hc
  rcases hn : (pageNameOf api p.1 p.2).1 with _ | name
  · simp only [backfillStep, hn, List.mem_append] at hc
    rcases hc with hc | hc
    · exact h c hc
    · rw [pageNameOf_calls api p.1 p.2 c hc]
      rfl
  · rcases ht : api.pageToken p.1 with _ | tok
    · simp only [backfillStep, hn, ht, List.mem_append] at hc
      rcases hc with (hc | hc) | hc
      · exact h c hc
      · rw [pageNameOf_calls api p.1 p.2 c hc]
        rfl
      · simp only [List.mem_singleton] at hc
        rw [hc]
        rfl
    · simp only [backfillStep, hn, ht, List.mem_append] at hc
      rcases hc with ((hc | hc) | hc) | hc
      · exact h c hc
      · rw [pageNameOf_calls api p.1 p.2 c hc]
        rfl
      · simp only [List.mem_singleton] at hc
        rw [hc]
        rfl
      · rw [get_missing_data_calls api p.1 mc c hc]
        rfl

lemma backfillFold_calls_no_insights (api : Api) (mc : List String) :
    ∀ (ps : List (String × String)) (acc : BackfillAcc),
      (∀ c ∈ acc.calls, c.isInsights = false) →
      ∀ c ∈ (ps.foldl (backfillStep api mc) acc).calls, c.isInsights = false := by
  intro ps
  induction ps with
  | nil => intro acc h; exact h
  | cons p rest ih =>
    intro acc h
    exact ih (backfillStep api mc acc p) (backfillStep_calls_no_insights api mc acc p h)

lemma get_page_metrics_calls_pid (api : Api) (pid : String) :
    ∀ c ∈ (get_page_metrics api pid).2, c.pid = pid := by
  intro c hc
  rcases ht : api.pageToken pid with _ | tok
  · simp only [get_page_metrics, ht, List.mem_singleton] at hc
    rw [hc]
    rfl
  · simp only [get_page_metrics, ht, List.mem_append, List.mem_replicate,
      List.mem_singleton, List.mem_cons, List.not_mem_nil, or_false] at hc
    rcases hc with (hc | hc) | hc | hc | hc
    · rw [hc]
      rfl
    · rw [hc.2]
      rfl
    · rw [hc]
      rfl
    · rw [hc]
      rfl
    · rw [hc]
      rfl

lemma newPageStep_rows (api : Api) (acc : NewAcc) (p : String × String) :
    ∀ r ∈ (newPageStep api acc p).rows, r ∈ acc.rows ∨ r.pageId = p.1 := by
  intro r hr
  rcases hn : (pageNameOf api p.1 p.2).1 with _ | name
  · simp only [newPageStep, hn] at hr
    exact Or.inl hr
  · simp only [newPageStep, hn, List.mem_append, List.mem_singleton] at hr
    rcases hr with hr | hr
    · exact Or.inl hr
    · right
      rw [hr]
      rfl

lemma newPageStep_calls (api : Api) (acc : NewAcc) (p : String × String) :
    ∀ c ∈ (newPageStep api acc p).calls, c ∈ acc.calls ∨ c.pid = p.1 := by
  intro c hc
  rcases hn : (pageNameOf api p.1 p.2).1 with _ | name
  · simp only [newPageStep, hn, List.mem_append] at hc
    rcases hc with hc | hc
    · exact Or.inl hc
    · right
      rw [pageNameOf_calls api p.1 p.2 c hc]
      rfl
  · simp only [newPageStep, hn, List.mem_append] at hc
    rcases hc with (hc | hc) | hc
    · exact Or.inl hc
    · right
      rw [pageNameOf_calls api p.1 p.2 c hc]
      rfl
    · exact Or.inr (get_page_metrics_calls_pid api p.1 c hc)

lemma newFold_rows (api : Api) :
    ∀ (ps : List (String × String)) (acc : NewAcc),
      ∀ r ∈ (ps.foldl (newPageStep api) acc).rows,
        r ∈ acc.rows ∨ ∃ p ∈ ps, r.pageId = p.1 := by
  intro ps
  induction ps with
  | nil => intro acc r hr; exact Or.inl hr
  | cons p rest ih =>
    intro acc r hr
    rcases ih (newPageStep api acc p) r hr with hin | ⟨q, hq, hpid⟩
    · rcases newPageStep_rows api acc p r hin with hin2 | hpid
      · exact Or.inl hin2
      · exact Or.inr ⟨p, List.mem_cons_self p rest, hpid⟩
    · exact Or.inr ⟨q, List.mem_cons_of_mem p hq, hpid⟩

lemma newFold_calls (api : Api) :
    ∀ (ps : List (String × String)) (acc : NewAcc),
      ∀ c ∈ (ps.foldl (newPageStep api) acc).calls,
        c ∈ acc.calls ∨ ∃ p ∈ ps, c.pid = p.1 := by
  intro ps
  induction ps with
  | nil => intro acc c hc; exact Or.inl hc
  | cons p rest ih =>
    intro acc c hc
    rcases ih (newPageStep api acc p) c hc with hin | ⟨q, hq, hpid⟩
    · rcases newPageStep_calls api acc p c hin with hin2 | hpid
      · exact Or.inl hin2
      · exact Or.inr ⟨p, List.mem_cons_self p rest, hpid⟩
    · exact Or.inr ⟨q, List.mem_cons_of_mem p hq, hpid⟩

end MergeLemmas

/-! ### Concrete API oracles used by witnesses and counterexamples -/

/-- Every token resolves, publications pages are empty, insights are blank. -/
def apiAllOk : Api :=
  { pageToken := fun _ => some "tok",
    pageName := fun _ => none,
    pubPages := fun _ _ => PubResp.ok 0 false,
    insights := fun _ _ => InsightResp.empty }

/-- A remote that would now report reach 999 for everything (and 7 posts). -/
def apiReach999 : Api :=
  { pageToken := fun _ => some "tok",
    pageName := fun _ => none,
    pubPages := fun _ _ => PubResp.ok 7 false,
    insights := fun _ _ => InsightResp.ok (PyVal.int 999) }

/-- Resource A1 works and has reach 100; every other token exchange fails. -/
def apiEndToEnd : Api :=
  { pageToken := fun pid => if pid = "A1" then some "tokA" else none,
    pageName := fun _ => none,
    pubPages := fun _ _ => PubResp.ok 0 false,
    insights := fun pid m =>
      if pid = "A1" ∧ m = "page_impressions_unique" then InsightResp.ok (PyVal.int 100)
      else InsightResp.empty }

section ClaimAuxiliary

lemma process_calls_existing_no_insights (api : Api) (page_list : List (String × String))
    (existing : SyncState) (mc : List String) :
    ∀ c ∈ (process_in_batches api page_list existing mc).calls,
      (alookup existing c.pid).isSome → c.isInsights = false := by
  intro c hc hsome
  simp only [process_in_batches, List.mem_append] at hc
  rcases hc with hc | hc
  · rcases newFold_calls api _ _ c hc with hin | ⟨p, hp, hpid⟩
    · exact absurd hin (List.not_mem_nil c)
    · have hnone := (List.mem_filter.mp hp).2
      rw [hpid] at hsome
      rw [Option.isNone_iff_eq_none] at hnone
      rw [hnone] at hsome
      exact absurd hsome (by simp)
  · refine backfillFold_calls_no_insights api _ _ _ ?_ c hc
    intro c' hc'
    exact absurd hc' (List.not_mem_nil c')

lemma process_reach_preserved (api : Api) (page_list : List (String × String))
    (existing : SyncState) (mc : List String) :
    ∀ k, (alookup (process_in_batches api page_list existing mc).finalState k).map
        PageData.reach = (alookup existing k).map PageData.reach := by
  intro k
  simp only [process_in_batches]
  exact backfillFold_reach api mc _ ⟨existing, 0, 0, []⟩ k

end ClaimAuxiliary

/-- C1: backfill-only refetch.  With a persisted window whose header lacks
"Publications" but has "Reach", a run without updateAll (a) never issues an
insights (per-metric) fetch for any resource already present in the loaded
SyncState — the only data calls the backfill path makes are the token
exchange, the optional name lookup, and the Publications pagination — and
(b) leaves every stored Reach value unchanged in the merged output, whatever
the remote would now answer (the oracle `api` is universally quantified). -/
theorem backfill_only_refetch (api : Api) (page_list : List (String × String))
    (fieldnames : List String) (rows : List CsvRow)
    (_hpub : "Publications" ∉ fieldnames) (_hreach : "Reach" ∈ fieldnames) :
    (∀ c ∈ (process_in_batches api page_list (read_existing_csv fieldnames rows).1
        (read_existing_csv fieldnames rows).2).calls,
      (alookup (read_existing_csv fieldnames rows).1 c.pid).isSome →
        c.isInsights = false) ∧
    (∀ k, (alookup (process_in_batches api page_list (read_existing_csv fieldnames rows).1
        (read_existing_csv fieldnames rows).2).finalState k).map PageData.reach
      = (alookup (read_existing_csv fieldnames rows).1 k).map PageData.reach) :=
  ⟨process_calls_existing_no_insights api page_list _ _,
   process_reach_preserved api page_list _ _⟩

/-- Witness for `backfill_only_refetch`: a stored reach of 100 survives a
backfill run against a remote that would now report 999. -/
theorem backfill_only_refetch_witness :
    (alookup (process_in_batches apiReach999 [("1", "A")]
        (read_existing_csv ["Page", "Page ID", "Reach"]
          [[("Page", "A"), ("Page ID", "1"), ("Reach", "100")]]).1
        (read_existing_csv ["Page", "Page ID", "Reach"]
          [[("Page", "A"), ("Page ID", "1"), ("Reach", "100")]]).2).finalState "1").map
      PageData.reach = some (PyVal.int 100) := by
  have h := backfill_only_refetch apiReach999 [("1", "A")] ["Page", "Page ID", "Reach"]
    [[("Page", "A"), ("Page ID", "1"), ("Reach", "100")]] (by decide) (by decide)
  rw [h.2 "1"]
  decide

/-- C5 counterexample: the engine performs no duplicate detection.  A batch
listing the same resource id twice against an empty SyncState returns
normally (no failure channel exists in the code) with BOTH duplicate rows in
the output. -/
theorem merge_duplicate_silent :
    ((process_in_batches apiAllOk [("1", "X"), ("1", "X")] [] []).results.filter
        (fun r => r.pageId == "1")).length = 2 ∧
    (process_in_batches apiAllOk [("1", "X"), ("1", "X")] [] []).results.length = 2 ∧
    (process_in_batches apiAllOk [("1", "X"), ("1", "X")] [] []).failed = 0 := by
  refine ⟨by decide, by decide, by decide⟩

/-- C5 amended: for every oracle, a fetch batch containing the same resource
id twice (with a non-empty display name) yields exactly two rows carrying
that id in the merged output — the merge engine silently keeps both
duplicates instead of failing. -/
theorem merge_duplicate_rows_kept (api : Api) (pid nm : String) (hnm : nm ≠ "") :
    ((process_in_batches api [(pid, nm), (pid, nm)] [] []).results.filter
        (fun r => r.pageId == pid)).length = 2 := by
  simp [process_in_batches, alookup, newPageStep, pageNameOf, hnm, mkRow]

/-- Witness for `merge_duplicate_rows_kept`. -/
theorem merge_duplicate_rows_kept_witness :
    ((process_in_batches apiReach999 [("7", "Y"), ("7", "Y")] [] []).results.filter
        (fun r => r.pageId == "7")).length = 2 :=
  merge_duplicate_rows_kept apiReach999 "7" "Y" (by decide)

/-- C6: end-to-end classification.  Resource A1 succeeds with reach 100 and
status OK (empty comment); resource B1's token exchange fails, producing
status NO_ACCESS with the Swedish comment and — per the call trace — no
request beyond the token exchange; the run yields exactly these two records
and the reach-descending sort lists A1 before B1. -/
theorem token_failure_end_to_end :
    (process_in_batches apiEndToEnd [("A1", "A"), ("B1", "B")] [] []).results.map
        (fun r => (r.pageId, r.status, r.reach, r.comment))
      = [("A1", some "OK", PyVal.int 100, some ""),
         ("B1", some "NO_ACCESS", PyVal.int 0,
          some "Kunde inte hämta Page Access Token")] ∧
    ((process_in_batches apiEndToEnd [("A1", "A"), ("B1", "B")] [] []).calls.filter
        (fun c => c.pid == "B1")) = [ApiCall.tokenExchange "B1"] ∧
    (save_results_sorted
        (process_in_batches apiEndToEnd [("A1", "A"), ("B1", "B")] [] []).results).map
        (fun r => r.pageId) = ["A1", "B1"] := by
  refine ⟨by decide, by decide, by decide⟩

/-- C7 counterexample: a stored record with status NO_ACCESS does NOT keep
its status on a later backfill run — `update_existing_page_data` overwrites
it with UPDATED as soon as the page is listed and its token resolves. -/
theorem status_no_access_overwritten :
    (alookup (read_existing_csv ["Page", "Page ID", "Reach", "Status"]
        [[("Page", "B"), ("Page ID", "1"), ("Reach", "0"),
          ("Status", "NO_ACCESS")]]).1 "1").map PageData.status
      = some (some "NO_ACCESS") ∧
    (alookup (process_in_batches apiAllOk [("1", "B")]
        (read_existing_csv ["Page", "Page ID", "Reach", "Status"]
          [[("Page", "B"), ("Page ID", "1"), ("Reach", "0"),
            ("Status", "NO_ACCESS")]]).1
        (read_existing_csv ["Page", "Page ID", "Reach", "Status"]
          [[("Page", "B"), ("Page ID", "1"), ("Reach", "0"),
            ("Status", "NO_ACCESS")]]).2).finalState "1").map PageData.status
      = some (some "UPDATED") := by
  refine ⟨by decide, by decide⟩

/-- C7 amended: across a merge run without updateAll, a stored record's
status either stays exactly what it was (page not listed, name or token
resolution failed, or no columns missing) or becomes UPDATED — and this
overwrite applies from ANY prior status, not only OK.  No other status
change is possible for an existing record. -/
theorem status_transition_updated (api : Api) (page_list : List (String × String))
    (existing : SyncState) (missing_columns : List String) (k : String) (pd : PageData)
    (h : alookup existing k = some pd) :
    ∃ pd', alookup (process_in_batches api page_list existing
        missing_columns).finalState k = some pd' ∧
      (pd' = pd ∨ pd'.status = some "UPDATED") := by
  simp only [process_in_batches]
  exact backfillFold_status api missing_columns _ ⟨existing, 0, 0, []⟩ k pd h

/-- Witness for `status_transition_updated` at a concrete loaded record. -/
theorem status_transition_updated_witness :
    ∃ pd', alookup (process_in_batches apiAllOk [("1", "B")]
        (read_existing_csv ["Page", "Page ID", "Reach", "Status"]
          [[("Page", "B"), ("Page ID", "1"), ("Reach", "0"),
            ("Status", "NO_ACCESS")]]).1
        (read_existing_csv ["Page", "Page ID", "Reach", "Status"]
          [[("Page", "B"), ("Page ID", "1"), ("Reach", "0"),
            ("Status", "NO_ACCESS")]]).2).finalState "1" = some pd' ∧
      (pd' = { page := "B", pageId := "1", reach := PyVal.int 0,
               engagedUsers := none, engagements := none, reactions := none,
               publications := none, status := some "NO_ACCESS",
               comment := none } ∨
       pd'.status = some "UPDATED") :=
  status_transition_updated apiAllOk [("1", "B")] _ _ "1" _ (by decide)

/-- C8: placeholder exclusion.  A discovery entry whose display name matches
`Srholder` + digits never survives `filter_placeholder_pages`, and a
resource id whose every discovery listing carries such a placeholder name is
absent from the entire ResultRecord output of a run over the filtered list
(starting from an empty SyncState), however often discovery repeats it. -/
theorem placeholder_exclusion (api : Api) (raw : List (String × String)) :
    (∀ pid n, isPlaceholderName n = true → (pid, n) ∉ filter_placeholder_pages raw) ∧
    (∀ pid, (∀ n, (pid, n) ∈ raw → isPlaceholderName n = true) →
      ∀ r ∈ (process_in_batches api (filter_placeholder_pages raw) [] []).results,
        r.pageId ≠ pid) := by
  constructor
  · intro pid n hpl hmem
    have hpred := (List.mem_filter.mp hmem).2
    rw [hpl] at hpred
    exact absurd hpred (by simp)
  · intro pid hall r hr hpid
    simp only [process_in_batches, List.isEmpty_nil, if_pos, List.foldl_nil,
      List.map_nil, List.nil_append] at hr
    rcases newFold_rows api _ _ r hr with hin | ⟨p, hp, hpid2⟩
    · exact absurd hin (List.not_mem_nil r)
    · have hp2 := (List.mem_filter.mp hp).1
      have hfilter := List.mem_filter.mp hp2
      have hp1 : p.1 = pid := by rw [← hpid2, hpid]
      have hraw : (pid, p.2) ∈ raw := by
        rw [← hp1]
        exact hfilter.1
      have hplace := hall p.2 hraw
      have hpred := hfilter.2
      rw [hplace] at hpred
      exact absurd hpred (by simp)

/-- Witness for `placeholder_exclusion` at the page named Srholder42. -/
theorem placeholder_exclusion_witness :
    ("42", "Srholder42") ∉ filter_placeholder_pages [("42", "Srholder42")] ∧
    ∀ r ∈ (process_in_batches apiAllOk
        (filter_placeholder_pages [("42", "Srholder42")]) [] []).results,
      r.pageId ≠ "42" := by
  have h := placeholder_exclusion apiAllOk [("42", "Srholder42")]
  refine ⟨h.1 "42" "Srholder42" (by decide), h.2 "42" ?_⟩
  intro n hn
  simp only [List.mem_singleton, Prod.mk.injEq] at hn
  rw [hn.2]
  decide
